import Mathlib

/-!
Verification of the `avds` CLI tool (src/bin/avd-runner.js), a launcher for
Android Virtual Devices.  The orchestration core — inventory parsing, the
selection state machine, the launch-strategy selector and the three launch
schedulers — is shallowly embedded below.  External effects are made explicit:
the result of the discovery command `emulator -list-avds` is a parameter
`execRes : Except String String` (error message, or stdout), and the outcome
of each `exec` spawn is a parameter `err : String → Option String`
(`none` = the spawn call succeeded, `some msg` = it reported an error).
Schedulers are modelled as functions producing an event trace (spawn, settle,
delay, prompt events) together with the list of per-device outcomes.
-/

namespace AVDS

/-- Per-device launch result (spec `LaunchOutcome`): the exec callback in
`launchAVD` either reports success or an error message. -/
inductive LaunchOutcome where
  | success : LaunchOutcome
  | failure (reason : String) : LaunchOutcome
deriving DecidableEq, Repr

/-- Observable scheduler events:
`spawn d` — the scheduler issues the exec call for device `d` (one call to
the Process Spawner); `settle d` — that spawn's promise resolves;
`delay ms` — `setTimeout` wait of `ms` milliseconds; `prompt d` — the
Sequential strategy blocks on "Press Enter to launch: d". -/
inductive Event where
  | spawn (d : String) : Event
  | settle (d : String) : Event
  | delay (ms : Nat) : Event
  | prompt (d : String) : Event
deriving DecidableEq, Repr

/-- `launchAVD(avdName)` (avd-runner.js lines 254–274): issues one exec call
and resolves when it settles; an exec error is reported and converted into a
resolution, never a rejection.  Returns the event trace and the outcome. -/
def launchAVD (err : String → Option String) (avdName : String) :
    List Event × LaunchOutcome :=
  ([Event.spawn avdName, Event.settle avdName],
   match err avdName with
   | none => LaunchOutcome.success
   | some msg => LaunchOutcome.failure msg)

/-- `launchAVDsParallel()` (lines 276–281): `selectedAVDs.map(avd =>
launchAVD(avd))` issues every spawn synchronously in selection order, then
`Promise.all` waits for all to settle.  The trace records the spawns in issue
order followed by the settles (one representative interleaving of the
concurrent settles; the claims proved below do not depend on settle order). -/
def launchAVDsParallel (err : String → Option String) (sel : List String) :
    List Event × List LaunchOutcome :=
  (sel.map Event.spawn ++ sel.map Event.settle,
   sel.map (fun d => (launchAVD err d).2))

/-- `launchAVDsDelayed()` (lines 283–294): for each device, await
`launchAVD`; if more devices remain (`i < length - 1`), wait 3000 ms before
the next. -/
def launchAVDsDelayed (err : String → Option String) :
    List String → List Event × List LaunchOutcome
  | [] => ([], [])
  | [d] => ((launchAVD err d).1, [(launchAVD err d).2])
  | d :: rest@(_ :: _) =>
    ((launchAVD err d).1 ++ [Event.delay 3000] ++ (launchAVDsDelayed err rest).1,
     (launchAVD err d).2 :: (launchAVDsDelayed err rest).2)

/-- `launchAVDsSequential()` (lines 296–317): for each device, block on the
"Press Enter to launch" acknowledgment, then await `launchAVD`. -/
def launchAVDsSequential (err : String → Option String) :
    List String → List Event × List LaunchOutcome
  | [] => ([], [])
  | d :: rest =>
    (Event.prompt d :: ((launchAVD err d).1 ++ (launchAVDsSequential err rest).1),
     (launchAVD err d).2 :: (launchAVDsSequential err rest).2)

/-- The devices spawned by a trace, in order of spawn issuance. -/
def spawnsOf (tr : List Event) : List String :=
  tr.filterMap (fun e =>
    match e with
    | Event.spawn d => some d
    | _ => none)

/-- Number of `delay` events in a trace. -/
def countDelays (tr : List Event) : Nat :=
  (tr.filter (fun e =>
    match e with
    | Event.delay _ => true
    | _ => false)).length

/-- Trace of the Delayed strategy as §4.5 of the spec words it: spawns issued
one at a time in Selection order, each followed by its settle, a fixed 3000 ms
delay between consecutive devices, and no delay after the final device.
Stated from the spec, to be compared with `launchAVDsDelayed`. -/
def delayedSpecTrace : List String → List Event
  | [] => []
  | [d] => [Event.spawn d, Event.settle d]
  | d :: rest@(_ :: _) =>
      Event.spawn d :: Event.settle d :: Event.delay 3000 :: delayedSpecTrace rest

/-- JavaScript `String.prototype.trim()`: strip leading and trailing
whitespace.  Implemented on the character list so that concrete instances
reduce inside the kernel. -/
def jsTrim (s : String) : String :=
  ⟨((s.data.dropWhile Char.isWhitespace).reverse.dropWhile Char.isWhitespace).reverse⟩

/-- Worker for `splitNewlines`: `acc` holds the characters of the current
segment in reverse. -/
def splitNewlinesGo : List Char → List Char → List String
  | [], acc => [⟨acc.reverse⟩]
  | c :: cs, acc =>
    if c = '\n' then ⟨acc.reverse⟩ :: splitNewlinesGo cs []
    else splitNewlinesGo cs (c :: acc)

/-- JavaScript `String.prototype.split('\n')`: cut the string at every
newline, keeping empty segments (so `"a\n\nb"` gives `["a", "", "b"]`). -/
def splitNewlines (s : String) : List String :=
  splitNewlinesGo s.data []

/-- Parsing of the discovery command's stdout (line 68):
`stdout.trim().split('\n').filter(avd => avd.trim() !== '')`. -/
def getAVDNames (stdout : String) : List String :=
  (splitNewlines (jsTrim stdout)).filter (fun avd => jsTrim avd ≠ "")

/-- Parsing as §4.1 of the spec words it: split on line breaks, trim each
line, drop the (now) empty lines, preserve order.  Stated from the spec,
for comparison with `getAVDNames`. -/
def specParseLines (s : String) : List String :=
  ((splitNewlines s).map jsTrim).filter (fun l => l ≠ "")

/-- `getAVDList()` (lines 56–79): on an exec error, print the error (the
console line `"Error: " ++ msg` includes the underlying message) and reject
with that error; on success parse stdout, rejecting with `"No AVDs found"`
(after printing the create-a-device hint) when the parsed list is empty.
Returns (console lines printed on the failure paths, settled result). -/
def getAVDList (execRes : Except String String) :
    List String × Except String (List String) :=
  match execRes with
  | Except.error msg =>
    (["❌ Error fetching AVDs. Make sure Android SDK is installed and emulator is in PATH.",
      "Error: " ++ msg],
     Except.error msg)
  | Except.ok stdout =>
    let avds := getAVDNames stdout
    if avds.length = 0 then
      (["⚠️  No AVDs found. Please create AVDs using Android Studio first."],
       Except.error "No AVDs found")
    else ([], Except.ok avds)

/-- The numbered inventory listing printed by `printAVDs` (lines 47–49):
`${index + 1}. ${avd}` for each device. -/
def numberedLines (avds : List String) : List String :=
  ((List.range avds.length).zip avds).map
    (fun p => toString (p.1 + 1) ++ ". " ++ p.2)

/-- Listing mode (`--list` / `-l`): `printAVDs()` (lines 42–54) fetches the
list; on failure it exits with status 1, on success it prints the numbered
list and a count, after which the caller (line 430) exits with status 0.
Returns (console lines, exit status). -/
def printAVDs (execRes : Except String String) : List String × Nat :=
  match (getAVDList execRes).2 with
  | Except.error _ => ((getAVDList execRes).1, 1)
  | Except.ok avds =>
    ((getAVDList execRes).1
      ++ ["📱 Available Android Virtual Devices:"]
      ++ numberedLines avds
      ++ ["📊 Total: " ++ toString avds.length ++ " AVD(s)"], 0)

/-- State of the built-in raw-keyboard checkbox UI (`selectAVDsBuiltIn`,
lines 82–161): the cursor position and the parallel `selected` boolean
array (initialised to `Array(avds.length).fill(false)`). -/
structure SelState where
  currentIndex : Nat
  selected : List Bool
deriving DecidableEq, Repr

/-- The keys the `handleKeypress` handler reacts to.  `ret` is the Enter key
(key name `'return'`), `ctrlC` is Ctrl-C, `other` any unhandled key. -/
inductive Key where
  | up | down | space | ret | q | ctrlC | other
deriving DecidableEq, Repr

/-- Result of one keypress: keep listening in a (possibly updated) state,
resolve with the chosen Selection, or terminate the whole process with an
exit code.  `rawOff` records whether `setRawMode(false)` was invoked on that
path before it completed. -/
inductive StepResult where
  | cont (st : SelState) : StepResult
  | resolved (sel : List String) (rawOff : Bool) : StepResult
  | exited (code : Nat) (rawOff : Bool) : StepResult
deriving DecidableEq, Repr

/-- `this.avds.filter((_, index) => selected[index])` (line 130): the devices
whose checkbox is checked, in inventory order. -/
def checkedAVDs (avds : List String) (selected : List Bool) : List String :=
  (avds.zip selected).filterMap (fun p => if p.2 then some p.1 else none)

/-- The `handleKeypress` state machine (lines 110–154).  `up`/`down` move the
cursor with wrap-around; `space` toggles the checkbox under the cursor;
Enter resolves with the checked subset after `setRawMode(false)`, unless
nothing is checked, in which case the menu is re-displayed and the state is
unchanged; `q` and Ctrl-C call `process.exit(0)` directly, without invoking
`setRawMode(false)`. -/
def handleKeypress (avds : List String) (st : SelState) (k : Key) : StepResult :=
  match k with
  | Key.up =>
    StepResult.cont
      ⟨if st.currentIndex > 0 then st.currentIndex - 1 else avds.length - 1,
       st.selected⟩
  | Key.down =>
    StepResult.cont
      ⟨if st.currentIndex < avds.length - 1 then st.currentIndex + 1 else 0,
       st.selected⟩
  | Key.space =>
    StepResult.cont
      ⟨st.currentIndex,
       st.selected.set st.currentIndex (!(st.selected.getD st.currentIndex false))⟩
  | Key.ret =>
    let selectedAVDs := checkedAVDs avds st.selected
    if selectedAVDs.length = 0 then StepResult.cont st
    else StepResult.resolved selectedAVDs true
  | Key.q => StepResult.exited 0 false
  | Key.ctrlC => StepResult.exited 0 false
  | Key.other => StepResult.cont st

/-- The `validate` callback of the inquirer checkbox question (lines
177–183): an empty choice yields the error string, anything else passes.
`none` models the `return true` branch. -/
def validateSelection (input : List String) : Option String :=
  if input.length = 0 then some "Please select at least one AVD." else none

/-- Spec `LaunchStrategy` / the `launchMode` strings. -/
inductive LaunchMode where
  | parallel | delayed | sequential
deriving DecidableEq, Repr

/-- Result of `selectLaunchOptions`: the chosen mode, whether the user was
prompted at all, and whether the invalid-choice warning was printed. -/
structure StrategyChoice where
  mode : LaunchMode
  prompted : Bool
  warned : Bool
deriving DecidableEq, Repr

/-- The built-in `rl.question` answer handling (lines 223–232): `'1'`/`'2'`/
`'3'` after trimming select the mode; anything else warns and defaults to
parallel.  Returns (mode, warned). -/
def parseStrategyChoice (answer : String) : LaunchMode × Bool :=
  if jsTrim answer = "1" then (LaunchMode.parallel, false)
  else if jsTrim answer = "2" then (LaunchMode.delayed, false)
  else if jsTrim answer = "3" then (LaunchMode.sequential, false)
  else (LaunchMode.parallel, true)

/-- `selectLaunchOptions()` (lines 194–235): a single selected device
returns `'parallel'` immediately, without prompting; otherwise the inquirer
list prompt (when available) or the built-in numbered prompt is used.
`inqChoice` stands for the answer of the inquirer list prompt. -/
def selectLaunchOptions (sel : List String) (useInq : Bool)
    (inqChoice : LaunchMode) (answer : String) : StrategyChoice :=
  if sel.length = 1 then ⟨LaunchMode.parallel, false, false⟩
  else if useInq then ⟨inqChoice, true, false⟩
  else ⟨(parseStrategyChoice answer).1, true, (parseStrategyChoice answer).2⟩

end AVDS

namespace AVDS

theorem spawnsOf_append (a b : List Event) :
    spawnsOf (a ++ b) = spawnsOf a ++ spawnsOf b :=
  List.filterMap_append a b _

theorem spawnsOf_launchAVD (err : String → Option String) (d : String) :
    spawnsOf (launchAVD err d).1 = [d] := rfl

theorem spawnsOf_delay (n : Nat) : spawnsOf [Event.delay n] = [] := rfl

theorem spawnsOf_map_spawn (sel : List String) :
    spawnsOf (sel.map Event.spawn) = sel := by
  induction sel with
  | nil => rfl
  | cons d rest ih => simp [spawnsOf, List.filterMap] at ih ⊢; exact ih

theorem spawnsOf_map_settle (sel : List String) :
    spawnsOf (sel.map Event.settle) = [] := by
  induction sel with
  | nil => rfl
  | cons d rest ih => simp [spawnsOf, ih]

theorem spawnsOf_parallel (err : String → Option String) (sel : List String) :
    spawnsOf (launchAVDsParallel err sel).1 = sel := by
  simp [launchAVDsParallel, spawnsOf_append, spawnsOf_map_spawn, spawnsOf_map_settle]

theorem spawnsOf_delayed (err : String → Option String) (sel : List String) :
    spawnsOf (launchAVDsDelayed err sel).1 = sel := by
  induction sel with
  | nil => simp [launchAVDsDelayed, spawnsOf]
  | cons d rest ih =>
    cases rest with
    | nil => simp [launchAVDsDelayed, spawnsOf_launchAVD]
    | cons e tail =>
      simp only [launchAVDsDelayed, spawnsOf_append, spawnsOf_launchAVD,
        spawnsOf_delay, ih]
      simp

theorem spawnsOf_sequential (err : String → Option String) (sel : List String) :
    spawnsOf (launchAVDsSequential err sel).1 = sel := by
  induction sel with
  | nil => rfl
  | cons d rest ih =>
    simp only [launchAVDsSequential] at ih ⊢
    simpa [spawnsOf, launchAVD, spawnsOf_append] using ih

theorem outcomes_parallel (err : String → Option String) (sel : List String) :
    (launchAVDsParallel err sel).2 = sel.map (fun d => (launchAVD err d).2) := rfl

theorem outcomes_delayed (err : String → Option String) (sel : List String) :
    (launchAVDsDelayed err sel).2 = sel.map (fun d => (launchAVD err d).2) := by
  induction sel with
  | nil => simp [launchAVDsDelayed]
  | cons d rest ih =>
    cases rest with
    | nil => simp [launchAVDsDelayed]
    | cons e tail =>
      simp only [launchAVDsDelayed, ih]
      simp

theorem outcomes_sequential (err : String → Option String) (sel : List String) :
    (launchAVDsSequential err sel).2 = sel.map (fun d => (launchAVD err d).2) := by
  induction sel with
  | nil => rfl
  | cons d rest ih =>
    simp only [launchAVDsSequential] at ih ⊢
    simp [ih]

theorem delayed_trace_eq_spec (err : String → Option String) (sel : List String) :
    (launchAVDsDelayed err sel).1 = delayedSpecTrace sel := by
  induction sel with
  | nil => simp [launchAVDsDelayed, delayedSpecTrace]
  | cons d rest ih =>
    cases rest with
    | nil => simp [launchAVDsDelayed, delayedSpecTrace, launchAVD]
    | cons e tail =>
      simp only [launchAVDsDelayed, delayedSpecTrace, ih]
      simp [launchAVD]

theorem countDelays_spec (sel : List String) :
    countDelays (delayedSpecTrace sel) = sel.length - 1 := by
  induction sel with
  | nil => simp [delayedSpecTrace, countDelays]
  | cons d rest ih =>
    cases rest with
    | nil => simp [delayedSpecTrace, countDelays]
    | cons e tail =>
      simp only [delayedSpecTrace] at ih ⊢
      simp [countDelays, List.filter] at ih ⊢
      omega

theorem seq_trace_eq (err : String → Option String) (sel : List String) :
    (launchAVDsSequential err sel).1
      = sel.flatMap (fun d => [Event.prompt d, Event.spawn d, Event.settle d]) := by
  induction sel with
  | nil => rfl
  | cons d rest ih =>
    simp only [launchAVDsSequential] at ih ⊢
    simp [launchAVD, ih]

theorem checkedAVDs_sublist (avds : List String) (selected : List Bool) :
    (checkedAVDs avds selected).Sublist avds := by
  induction avds generalizing selected with
  | nil => simp [checkedAVDs]
  | cons a as ih =>
    cases selected with
    | nil => simp [checkedAVDs]
    | cons b bs =>
      cases b with
      | false =>
        simpa [checkedAVDs] using List.Sublist.cons a (ih bs)
      | true =>
        simpa [checkedAVDs] using List.Sublist.cons₂ a (ih bs)


theorem spawn_mem_of_mem_spawnsOf {y : String} {tr : List Event}
    (h : y ∈ spawnsOf tr) : Event.spawn y ∈ tr := by
  simp only [spawnsOf, List.mem_filterMap] at h
  obtain ⟨e, he, hfe⟩ := h
  cases e <;> simp_all

theorem delayedSpecTrace_ne_nil (sel : List String) (h : sel ≠ []) :
    delayedSpecTrace sel ≠ [] := by
  cases sel with
  | nil => exact absurd rfl h
  | cons d rest => cases rest <;> simp [delayedSpecTrace]

theorem delayedSpec_getLast (sel : List String) (d : String)
    (h : sel.getLast? = some d) :
    (delayedSpecTrace sel).getLast? = some (Event.settle d) := by
  induction sel with
  | nil => simp at h
  | cons a rest ih =>
    cases rest with
    | nil =>
      simp [List.getLast?] at h
      simp [delayedSpecTrace, List.getLast?, h]
    | cons b tail =>
      have hrest : (b :: tail).getLast? = some d := by
        rw [← h]; symm; exact List.getLast?_cons_cons
      have hne := delayedSpecTrace_ne_nil (b :: tail) (by simp)
      obtain ⟨r0, r', hr⟩ := List.exists_cons_of_ne_nil hne
      have hrec := ih hrest
      rw [hr] at hrec
      simp only [delayedSpecTrace, hr]
      rw [List.getLast?_cons_cons, List.getLast?_cons_cons, List.getLast?_cons_cons]
      exact hrec

/-- C1: for every non-empty Selection and each of the three strategies, the
scheduler calls the Process Spawner (the exec call in `launchAVD`) exactly
once per selected device — the spawn events of the trace are exactly the
Selection, in order, with no duplicates, omissions or retries — and produces
exactly one outcome per device, in Selection order. -/
theorem scheduler_one_spawn_per_device (err : String → Option String)
    (sel : List String) (h : sel ≠ []) :
    (spawnsOf (launchAVDsParallel err sel).1 = sel
      ∧ (launchAVDsParallel err sel).2 = sel.map (fun d => (launchAVD err d).2))
    ∧ (spawnsOf (launchAVDsDelayed err sel).1 = sel
      ∧ (launchAVDsDelayed err sel).2 = sel.map (fun d => (launchAVD err d).2))
    ∧ (spawnsOf (launchAVDsSequential err sel).1 = sel
      ∧ (launchAVDsSequential err sel).2 = sel.map (fun d => (launchAVD err d).2)) :=
  ⟨⟨spawnsOf_parallel err sel, outcomes_parallel err sel⟩,
   ⟨spawnsOf_delayed err sel, outcomes_delayed err sel⟩,
   ⟨spawnsOf_sequential err sel, outcomes_sequential err sel⟩⟩

theorem scheduler_one_spawn_per_device_witness :
    spawnsOf (launchAVDsDelayed (fun _ => none) ["Pixel_5", "Pixel_7"]).1
      = ["Pixel_5", "Pixel_7"] :=
  (scheduler_one_spawn_per_device (fun _ => none) ["Pixel_5", "Pixel_7"]
    (by decide)).2.1.1

/-- C2: a spawn failure (`err x = some msg`) is converted by `launchAVD`
into a per-device Failure outcome and never aborts the batch: under every
strategy all devices of the Selection — in particular every device `y`
ordered after the failing `x` — are still spawned, and the outcome list is
still total (one outcome per device), so no spawn error escapes the
scheduler as a rejection. -/
theorem spawn_failure_isolated (err : String → Option String)
    (xs ys : List String) (x msg : String) (hx : err x = some msg) :
    (launchAVD err x).2 = LaunchOutcome.failure msg
    ∧ spawnsOf (launchAVDsParallel err (xs ++ x :: ys)).1 = xs ++ x :: ys
    ∧ spawnsOf (launchAVDsDelayed err (xs ++ x :: ys)).1 = xs ++ x :: ys
    ∧ spawnsOf (launchAVDsSequential err (xs ++ x :: ys)).1 = xs ++ x :: ys
    ∧ (∀ y ∈ ys,
        Event.spawn y ∈ (launchAVDsParallel err (xs ++ x :: ys)).1
        ∧ Event.spawn y ∈ (launchAVDsDelayed err (xs ++ x :: ys)).1
        ∧ Event.spawn y ∈ (launchAVDsSequential err (xs ++ x :: ys)).1)
    ∧ (launchAVDsDelayed err (xs ++ x :: ys)).2
        = (xs ++ x :: ys).map (fun d => (launchAVD err d).2) := by
  refine ⟨by simp [launchAVD, hx], spawnsOf_parallel err _, spawnsOf_delayed err _,
    spawnsOf_sequential err _, ?_, outcomes_delayed err _⟩
  intro y hy
  have hmem : y ∈ xs ++ x :: ys := by simp [hy]
  exact ⟨spawn_mem_of_mem_spawnsOf (by rw [spawnsOf_parallel]; exact hmem),
    spawn_mem_of_mem_spawnsOf (by rw [spawnsOf_delayed]; exact hmem),
    spawn_mem_of_mem_spawnsOf (by rw [spawnsOf_sequential]; exact hmem)⟩

theorem spawn_failure_isolated_witness :
    (launchAVD (fun d => if d = "B" then some "boom" else none) "B").2
      = LaunchOutcome.failure "boom"
    ∧ Event.spawn "C"
        ∈ (launchAVDsSequential (fun d => if d = "B" then some "boom" else none)
            (["A"] ++ "B" :: ["C"])).1 :=
  have h := spawn_failure_isolated (fun d => if d = "B" then some "boom" else none)
    ["A"] ["C"] "B" "boom" (by decide)
  ⟨h.1, (h.2.2.2.2.1 "C" (by decide)).2.2⟩

/-- C3: under the Delayed strategy the trace coincides with the spec's
description — spawns one at a time in Selection order, each settling before
the fixed 3000 ms delay that is inserted only when more devices remain —
and for `N ≥ 2` devices exactly `N − 1` delays occur, the spawn order is
the Selection order, and the final event is the last device's settle (no
delay after the final device). -/
theorem delayed_strategy_timing (err : String → Option String)
    (sel : List String) (h : 2 ≤ sel.length) :
    (launchAVDsDelayed err sel).1 = delayedSpecTrace sel
    ∧ countDelays (launchAVDsDelayed err sel).1 = sel.length - 1
    ∧ spawnsOf (launchAVDsDelayed err sel).1 = sel
    ∧ (∀ d, sel.getLast? = some d →
        (launchAVDsDelayed err sel).1.getLast? = some (Event.settle d)) := by
  refine ⟨delayed_trace_eq_spec err sel, ?_, spawnsOf_delayed err sel, ?_⟩
  · rw [delayed_trace_eq_spec]; exact countDelays_spec sel
  · intro d hd
    rw [delayed_trace_eq_spec]
    exact delayedSpec_getLast sel d hd

theorem delayed_strategy_timing_witness :
    countDelays (launchAVDsDelayed (fun _ => none) ["A", "B", "C"]).1 = 2
    ∧ (launchAVDsDelayed (fun _ => none) ["A", "B", "C"]).1.getLast?
        = some (Event.settle "C") :=
  have h := delayed_strategy_timing (fun _ => none) ["A", "B", "C"] (by decide)
  ⟨h.2.1, h.2.2.2 "C" (by decide)⟩



theorem getElem?_cons3 {α : Type} (a b c : α) (L : List α) (n : Nat) :
    (a :: b :: c :: L)[n + 3]? = L[n]? := by
  show (a :: b :: c :: L)[(n + 2) + 1]? = L[n]?
  rw [List.getElem?_cons_succ]
  show (b :: c :: L)[(n + 1) + 1]? = L[n]?
  rw [List.getElem?_cons_succ]
  show (c :: L)[n + 1]? = L[n]?
  rw [List.getElem?_cons_succ]

theorem seq_spec_get (sel : List String) (i : Nat) (hi : i < sel.length) :
    (sel.flatMap (fun d => [Event.prompt d, Event.spawn d, Event.settle d]))[3 * i]?
      = some (Event.prompt sel[i])
    ∧ (sel.flatMap (fun d => [Event.prompt d, Event.spawn d, Event.settle d]))[3 * i + 1]?
      = some (Event.spawn sel[i])
    ∧ (sel.flatMap (fun d => [Event.prompt d, Event.spawn d, Event.settle d]))[3 * i + 2]?
      = some (Event.settle sel[i]) := by
  induction sel generalizing i with
  | nil => simp at hi
  | cons d rest ih =>
    cases i with
    | zero => simp
    | succ j =>
      have hj : j < rest.length := by simpa using hi
      have h3 : 3 * (j + 1) = 3 * j + 3 := by ring
      have h3a : 3 * j + 3 + 1 = (3 * j + 1) + 3 := by ring
      have h3b : 3 * j + 3 + 2 = (3 * j + 2) + 3 := by ring
      rw [h3, h3a, h3b]
      simp only [List.flatMap_cons, List.cons_append, List.nil_append,
        getElem?_cons3, List.getElem_cons_succ]
      exact ih j hj

/-- C4: under the Sequential strategy the trace is exactly, per device in
Selection order, the user acknowledgment prompt, then the spawn, then its
settle: the spawn of device `i+1` (at trace position `3(i+1)+1`) comes
after its prompt (position `3(i+1)`), which itself comes after the settle of
device `i` (position `3i+2`). -/
theorem sequential_strategy_interactive (err : String → Option String)
    (sel : List String) :
    (launchAVDsSequential err sel).1
      = sel.flatMap (fun d => [Event.prompt d, Event.spawn d, Event.settle d])
    ∧ ∀ i (hi : i < sel.length),
        (launchAVDsSequential err sel).1[3 * i]? = some (Event.prompt sel[i])
        ∧ (launchAVDsSequential err sel).1[3 * i + 1]? = some (Event.spawn sel[i])
        ∧ (launchAVDsSequential err sel).1[3 * i + 2]? = some (Event.settle sel[i]) := by
  refine ⟨seq_trace_eq err sel, ?_⟩
  intro i hi
  rw [seq_trace_eq]
  exact seq_spec_get sel i hi

theorem sequential_strategy_interactive_witness :
    (launchAVDsSequential (fun _ => none) ["A", "B"]).1[3]?
      = some (Event.prompt "B") :=
  ((sequential_strategy_interactive (fun _ => none) ["A", "B"]).2 1 (by decide)).1

/-- C5: the Selector never hands an empty Selection to its caller: in the
raw-keyboard UI, Enter with nothing checked re-displays the menu in the
unchanged state instead of resolving (so any resolved Selection is
non-empty), and the rich-prompt `validate` callback passes exactly the
non-empty choices. -/
theorem selector_nonempty (avds : List String) (st : SelState) :
    (∀ k sel b, handleKeypress avds st k = StepResult.resolved sel b → sel ≠ [])
    ∧ (checkedAVDs avds st.selected = [] →
        handleKeypress avds st Key.ret = StepResult.cont st)
    ∧ (∀ input : List String, validateSelection input = none ↔ input ≠ []) := by
  refine ⟨?_, ?_, ?_⟩
  · intro k sel b h
    cases k with
    | ret =>
      simp only [handleKeypress] at h
      split at h
      · cases h
      · rename_i hne
        injection h with h1 h2
        rw [← h1]
        intro hnil
        exact hne (by simp [hnil])
    | up => cases h
    | down => cases h
    | space => cases h
    | q => cases h
    | ctrlC => cases h
    | other => cases h
  · intro h
    simp [handleKeypress, h]
  · intro input
    cases input <;> simp [validateSelection]

theorem selector_nonempty_witness :
    (["A"] : List String) ≠ []
    ∧ (validateSelection ["A"] = none ↔ (["A"] : List String) ≠ []) :=
  ⟨(selector_nonempty ["A"] ⟨0, [true]⟩).1 Key.ret ["A"] true (by decide),
   (selector_nonempty ["A"] ⟨0, [true]⟩).2.2 ["A"]⟩

/-- C10: a Selection resolved by the raw-keyboard UI is exactly the checked
subset of the inventory in inventory order — an order-preserving
subsequence — and the Delayed and Sequential schedulers spawn it in that
order. -/
theorem selection_order_preserving (err : String → Option String)
    (avds : List String) (st : SelState) (sel : List String) (b : Bool)
    (h : handleKeypress avds st Key.ret = StepResult.resolved sel b) :
    sel = checkedAVDs avds st.selected
    ∧ sel.Sublist avds
    ∧ spawnsOf (launchAVDsDelayed err sel).1 = sel
    ∧ spawnsOf (launchAVDsSequential err sel).1 = sel := by
  have hsel : sel = checkedAVDs avds st.selected := by
    simp only [handleKeypress] at h
    split at h
    · cases h
    · injection h with h1 h2
      exact h1.symm
  refine ⟨hsel, ?_, spawnsOf_delayed err sel, spawnsOf_sequential err sel⟩
  rw [hsel]
  exact checkedAVDs_sublist avds st.selected

theorem selection_order_preserving_witness :
    (["A", "C"] : List String) = checkedAVDs ["A", "B", "C"] [true, false, true]
    ∧ (["A", "C"] : List String).Sublist ["A", "B", "C"] :=
  have h := selection_order_preserving (fun _ => none) ["A", "B", "C"]
    ⟨0, [true, false, true]⟩ ["A", "C"] true (by decide)
  ⟨h.1, h.2.1⟩



/-- C6 counterexample: on the output `"Pixel_5 \nPixel_7"` the code keeps
the trailing space of the first line — kept lines are not individually
trimmed — so the claimed per-line-trimming parse disagrees with the code. -/
theorem inventory_parse_cex :
    getAVDNames "Pixel_5 \nPixel_7" = ["Pixel_5 ", "Pixel_7"]
    ∧ specParseLines "Pixel_5 \nPixel_7" = ["Pixel_5", "Pixel_7"]
    ∧ getAVDNames "Pixel_5 \nPixel_7" ≠ specParseLines "Pixel_5 \nPixel_7" := by
  refine ⟨by decide, by decide, by decide⟩

/-- C6 amended: the Inventory Lister trims the whole output, splits it on
newlines, drops the lines that are empty after trimming and keeps the
remaining lines unmodified, preserving their order; the output
`"Pixel_5\n\nPixel_7\n"` yields exactly `["Pixel_5", "Pixel_7"]`. -/
theorem inventory_parse_amended (s : String) :
    (getAVDNames s).Sublist (splitNewlines (jsTrim s))
    ∧ (∀ l ∈ getAVDNames s, jsTrim l ≠ "")
    ∧ getAVDNames "Pixel_5\n\nPixel_7\n" = ["Pixel_5", "Pixel_7"] := by
  refine ⟨List.filter_sublist _, ?_, by decide⟩
  intro l hl
  simp only [getAVDNames, List.mem_filter, decide_not] at hl
  simpa using hl.2

theorem inventory_parse_amended_witness :
    jsTrim "Pixel_5" ≠ ""
    ∧ getAVDNames "Pixel_5\n\nPixel_7\n" = ["Pixel_5", "Pixel_7"] :=
  ⟨(inventory_parse_amended "Pixel_5\n\nPixel_7\n").2.1 "Pixel_5" (by decide),
   (inventory_parse_amended "Pixel_5\n\nPixel_7\n").2.2⟩

/-- C7: the inventory fetch settles in an error exactly when the discovery
command errors (and then the rejection carries the underlying message,
which is also printed as `"Error: " ++ msg`) or when it succeeds but the
parsed list is empty (and then the printed message directs the user to
create a device first); in listing mode the exit status is 1 on either
failure and 0 on success, where the numbered list is printed. -/
theorem discovery_failure_characterisation (execRes : Except String String) :
    ((∃ e, (getAVDList execRes).2 = Except.error e)
      ↔ (∃ m, execRes = Except.error m)
        ∨ (∃ s, execRes = Except.ok s ∧ getAVDNames s = []))
    ∧ (∀ m, execRes = Except.error m →
        (getAVDList execRes).2 = Except.error m
        ∧ ("Error: " ++ m) ∈ (getAVDList execRes).1
        ∧ (printAVDs execRes).2 = 1)
    ∧ (∀ s, execRes = Except.ok s → getAVDNames s = [] →
        (getAVDList execRes).2 = Except.error "No AVDs found"
        ∧ "⚠️  No AVDs found. Please create AVDs using Android Studio first."
            ∈ (getAVDList execRes).1
        ∧ (printAVDs execRes).2 = 1)
    ∧ (∀ s, execRes = Except.ok s → getAVDNames s ≠ [] →
        (getAVDList execRes).2 = Except.ok (getAVDNames s)
        ∧ (printAVDs execRes).1
            = ["📱 Available Android Virtual Devices:"]
              ++ numberedLines (getAVDNames s)
              ++ ["📊 Total: " ++ toString (getAVDNames s).length ++ " AVD(s)"]
        ∧ (printAVDs execRes).2 = 0) := by
  cases execRes with
  | error m =>
    refine ⟨⟨fun _ => Or.inl ⟨m, rfl⟩, fun _ => ⟨m, by simp [getAVDList]⟩⟩, ?_, ?_, ?_⟩
    · intro m' hm'
      injection hm' with hmm
      subst hmm
      exact ⟨by simp [getAVDList], by simp [getAVDList], by simp [printAVDs, getAVDList]⟩
    · intro s hs; cases hs
    · intro s hs; cases hs
  | ok s =>
    by_cases hemp : getAVDNames s = []
    · have hlen : (getAVDNames s).length = 0 := by simp [hemp]
      refine ⟨⟨fun _ => Or.inr ⟨s, rfl, hemp⟩,
        fun _ => ⟨"No AVDs found", by simp [getAVDList, hlen]⟩⟩, ?_, ?_, ?_⟩
      · intro m hm; cases hm
      · intro s' hs' _
        injection hs' with hss
        subst hss
        exact ⟨by simp [getAVDList, hlen], by simp [getAVDList, hlen],
          by simp [printAVDs, getAVDList, hlen]⟩
      · intro s' hs' hne
        injection hs' with hss
        subst hss
        exact absurd hemp hne
    · have hlen : ¬(getAVDNames s).length = 0 := by
        simpa [List.length_eq_zero] using hemp
      refine ⟨⟨?_, ?_⟩, ?_, ?_, ?_⟩
      · intro ⟨e, he⟩
        simp [getAVDList, hlen] at he
      · rintro (⟨m, hm⟩ | ⟨s', hs', hemp'⟩)
        · cases hm
        · injection hs' with hss
          subst hss
          exact absurd hemp' hemp
      · intro m hm; cases hm
      · intro s' hs' hemp'
        injection hs' with hss
        subst hss
        exact absurd hemp' hemp
      · intro s' hs' _
        injection hs' with hss
        subst hss
        exact ⟨by simp [getAVDList, hlen], by simp [printAVDs, getAVDList, hlen],
          by simp [printAVDs, getAVDList, hlen]⟩

theorem discovery_failure_characterisation_witness :
    (printAVDs (Except.error "spawn ENOENT")).2 = 1
    ∧ (printAVDs (Except.ok "")).2 = 1
    ∧ (printAVDs (Except.ok "Pixel_5\n\nPixel_7\n")).2 = 0 :=
  ⟨((discovery_failure_characterisation (Except.error "spawn ENOENT")).2.1
      "spawn ENOENT" rfl).2.2,
   ((discovery_failure_characterisation (Except.ok "")).2.2.1 "" rfl (by decide)).2.2,
   ((discovery_failure_characterisation (Except.ok "Pixel_5\n\nPixel_7\n")).2.2.2
      "Pixel_5\n\nPixel_7\n" rfl (by decide)).2.2⟩

/-- C8: with a single selected device the strategy selector returns
Parallel without prompting; with two or more devices in the minimal UI, any
answer other than `1`, `2`, `3` (after trimming) defaults to Parallel with
the invalid-choice warning, never failing. -/
theorem strategy_selector_default (sel : List String) (useInq : Bool)
    (inq : LaunchMode) (ans : String) :
    (sel.length = 1 →
      selectLaunchOptions sel useInq inq ans
        = ⟨LaunchMode.parallel, false, false⟩)
    ∧ (2 ≤ sel.length → jsTrim ans ≠ "1" → jsTrim ans ≠ "2" → jsTrim ans ≠ "3" →
      selectLaunchOptions sel false inq ans
        = ⟨LaunchMode.parallel, true, true⟩) := by
  constructor
  · intro h
    simp [selectLaunchOptions, h]
  · intro h h1 h2 h3
    have hne : sel.length ≠ 1 := by omega
    simp [selectLaunchOptions, hne, parseStrategyChoice, h1, h2, h3]

theorem strategy_selector_default_witness :
    selectLaunchOptions ["A"] true LaunchMode.delayed "2"
      = ⟨LaunchMode.parallel, false, false⟩
    ∧ selectLaunchOptions ["A", "B"] false LaunchMode.delayed "yes"
      = ⟨LaunchMode.parallel, true, true⟩ :=
  ⟨(strategy_selector_default ["A"] true LaunchMode.delayed "2").1 rfl,
   (strategy_selector_default ["A", "B"] false LaunchMode.delayed "yes").2
     (by decide) (by decide) (by decide) (by decide)⟩

/-- C9 counterexample: pressing `q` in the raw-keyboard Selector terminates
the process (exit 0) without `setRawMode(false)` ever being invoked on that
path — the claim that every exit path invokes it is false. -/
theorem raw_mode_quit_cex :
    handleKeypress ["Pixel_5"] ⟨0, [false]⟩ Key.q = StepResult.exited 0 false
    ∧ StepResult.exited 0 false ≠ StepResult.exited 0 true := by
  refine ⟨by decide, by decide⟩

/-- C9 amended: the normal-confirm path always invokes `setRawMode(false)`
before resolving, but the quit paths (`q`, Ctrl-C) call `process.exit(0)`
directly without invoking it; terminal restoration on quit is left to the
runtime. -/
theorem raw_mode_restoration (avds : List String) (st : SelState) :
    (∀ k sel b, handleKeypress avds st k = StepResult.resolved sel b → b = true)
    ∧ handleKeypress avds st Key.q = StepResult.exited 0 false
    ∧ handleKeypress avds st Key.ctrlC = StepResult.exited 0 false := by
  refine ⟨?_, rfl, rfl⟩
  intro k sel b h
  cases k with
  | ret =>
    simp only [handleKeypress] at h
    split at h
    · cases h
    · injection h with h1 h2
      exact h2.symm
  | up => cases h
  | down => cases h
  | space => cases h
  | q => cases h
  | ctrlC => cases h
  | other => cases h

theorem raw_mode_restoration_witness :
    (true : Bool) = true
    ∧ handleKeypress ["Pixel_7"] ⟨0, [true]⟩ Key.q = StepResult.exited 0 false :=
  ⟨(raw_mode_restoration ["Pixel_7"] ⟨0, [true]⟩).1 Key.ret ["Pixel_7"] true (by decide),
   (raw_mode_restoration ["Pixel_7"] ⟨0, [true]⟩).2.1⟩

end AVDS
